import Mathlib

/-! Shallow embedding of the gemini diagnostic scripts
    (scripts/gemini/*.py): the configuration-file loaders and writers,
    and the HTTP probe primitives with their outcome classification.
    Python strings are modelled as lists of characters where the
    loader-level character manipulation matters, and as Lean strings
    at the probe level. -/

/-- Characters of a Python string. -/
abbrev Chars := List Char

/-- Whitespace recognised by Python str.strip with no arguments
    (space, tab, newline, carriage return, vertical tab, form feed). -/
def isWS (c : Char) : Bool :=
  c = ' ' || c = '\t' || c = '\n' || c = '\r' || c = Char.ofNat 11 || c = Char.ofNat 12

/-- The two quote characters stripped by the loaders: a double quote
    and a single quote (character code 39). -/
def isQuote (c : Char) : Bool :=
  c = '"' || c = Char.ofNat 39

/-- Drop characters satisfying p from the left end. -/
def stripL (p : Char → Bool) (l : Chars) : Chars := l.dropWhile p

/-- Drop characters satisfying p from the right end. -/
def stripR (p : Char → Bool) : Chars → Chars
  | [] => []
  | a :: t =>
    match stripR p t with
    | [] => if p a then [] else [a]
    | b :: r => a :: b :: r

/-- Python str.strip(chars): drop characters satisfying p from both ends. -/
def pyStrip (p : Char → Bool) (l : Chars) : Chars := stripR p (stripL p l)

/-- Python str.strip() with no argument. -/
def pyTrim (l : Chars) : Chars := pyStrip isWS l

/-- Python str.strip on the two quote characters, as in the loaders. -/
def stripQ (l : Chars) : Chars := pyStrip isQuote l

theorem dropWhile_head_not (p : Char → Bool) :
    ∀ (l : Chars) (c : Char), (l.dropWhile p).head? = some c → p c = false := by
  intro l
  induction l with
  | nil => intro c h; simp [List.dropWhile] at h
  | cons a t ih =>
    intro c h
    by_cases hp : p a
    · rw [List.dropWhile_cons_of_pos hp] at h
      exact ih c h
    · rw [List.dropWhile_cons_of_neg hp] at h
      simp at h
      subst h
      exact Bool.eq_false_iff.mpr hp

theorem stripR_getLast_not (p : Char → Bool) :
    ∀ (l : Chars) (c : Char), (stripR p l).getLast? = some c → p c = false := by
  intro l
  induction l with
  | nil => intro c h; simp [stripR] at h
  | cons a t ih =>
    intro c h
    rw [stripR] at h
    cases hr : stripR p t with
    | nil =>
      rw [hr] at h
      by_cases hp : p a
      · simp [hp] at h
      · simp [hp] at h
        subst h
        exact Bool.eq_false_iff.mpr hp
    | cons b r =>
      rw [hr] at h
      have : (a :: b :: r).getLast? = (b :: r).getLast? := by
        simp [List.getLast?_cons_cons]
      rw [this] at h
      rw [← hr] at h
      exact ih c h

theorem stripR_head?_eq (p : Char → Bool) :
    ∀ (l : Chars) (c : Char), (stripR p l).head? = some c → l.head? = some c := by
  intro l
  cases l with
  | nil => intro c h; simp [stripR] at h
  | cons a t =>
    intro c h
    rw [stripR] at h
    cases hr : stripR p t with
    | nil =>
      rw [hr] at h
      by_cases hp : p a
      · simp [hp] at h
      · simp [hp] at h
        simp [h]
    | cons b r =>
      rw [hr] at h
      simp at h
      simp [h]

theorem stripR_subset (p : Char → Bool) :
    ∀ (l : Chars), ∀ c ∈ stripR p l, c ∈ l := by
  intro l
  induction l with
  | nil => intro c h; simp [stripR] at h
  | cons a t ih =>
    intro c h
    rw [stripR] at h
    cases hr : stripR p t with
    | nil =>
      rw [hr] at h
      by_cases hp : p a
      · simp [hp] at h
      · simp [hp] at h
        simp [h]
    | cons b r =>
      rw [hr] at h
      rcases List.mem_cons.mp h with h1 | h2
      · simp [h1]
      · have : c ∈ stripR p t := by rw [hr]; exact h2
        exact List.mem_cons_of_mem a (ih c this)

theorem dropWhile_eq_self_of (p : Char → Bool) (l : Chars)
    (h : ∀ c, l.head? = some c → p c = false) : l.dropWhile p = l := by
  cases l with
  | nil => simp
  | cons a t =>
    have ha : p a = false := h a (by simp)
    rw [List.dropWhile_cons_of_neg (by simp [ha])]

theorem stripR_eq_self_of (p : Char → Bool) :
    ∀ (l : Chars), (∀ c, l.getLast? = some c → p c = false) → stripR p l = l := by
  intro l
  induction l with
  | nil => intro _; simp [stripR]
  | cons a t ih =>
    intro h
    cases t with
    | nil =>
      have ha : p a = false := h a (by simp)
      simp [stripR, ha]
    | cons b r =>
      have ht : stripR p (b :: r) = b :: r := by
        apply ih
        intro c hc
        apply h
        rw [List.getLast?_cons_cons]
        exact hc
      rw [stripR, ht]

theorem stripR_concat_pos (p : Char → Bool) (c : Char) (hc : p c = true) :
    ∀ (l : Chars), stripR p (l ++ [c]) = stripR p l := by
  intro l
  induction l with
  | nil => simp [stripR, hc]
  | cons a t ih =>
    have : (a :: t) ++ [c] = a :: (t ++ [c]) := rfl
    rw [this, stripR, ih, stripR]

theorem dropWhile_eq_self_of_all (p : Char → Bool) (l : Chars)
    (h : ∀ c ∈ l, p c = false) : l.dropWhile p = l := by
  apply dropWhile_eq_self_of
  intro c hc
  cases l with
  | nil => simp at hc
  | cons a t =>
    simp at hc
    subst hc
    exact h a (by simp)

theorem stripR_eq_self_of_all (p : Char → Bool) (l : Chars)
    (h : ∀ c ∈ l, p c = false) : stripR p l = l := by
  apply stripR_eq_self_of
  intro c hc
  apply h
  cases l with
  | nil => simp at hc
  | cons a t =>
    have := List.getLast?_eq_getLast (a :: t) (by simp)
    rw [this] at hc
    simp at hc
    subst hc
    exact List.getLast_mem (by simp)

theorem pyStrip_eq_self_of_all (p : Char → Bool) (l : Chars)
    (h : ∀ c ∈ l, p c = false) : pyStrip p l = l := by
  rw [pyStrip, stripL, dropWhile_eq_self_of_all p l h, stripR_eq_self_of_all p l h]

/-- One pass of the single-line loader shared by gemini-key-helper.py,
    debug-gemini.py and test-models.py (load_env): strip the line, skip
    comments, blank lines and lines without an equals sign; otherwise
    split at the first equals sign, strip quotes then whitespace from
    the value, and strip whitespace from the key. -/
def parse_line (l : Chars) : Option (Chars × Chars) :=
  let line := pyTrim l
  if line.head? = some '#' ∨ line = [] ∨ line.contains '=' = false then none
  else
    some (pyTrim (line.takeWhile (fun c => !(c == '='))),
          pyTrim (stripQ ((line.dropWhile (fun c => !(c == '='))).tail)))

/-- The single-line loader: the sequence of dictionary assignments it
    performs, in source order (later assignments to the same key win). -/
def load_env_lines (lines : List Chars) : List (Chars × Chars) :=
  lines.filterMap parse_line

/-- Python dictionary lookup on an assignment sequence: the value of the
    last assignment to the key, if any. -/
def dict_get (env : List (Chars × Chars)) (k : Chars) : Option Chars :=
  (env.reverse.find? (fun p => p.1 == k)).map Prod.snd

/-- Flush of the pending entry in the multi-line loader of
    test-gemini-key.py: emitted only when the pending key is truthy,
    with the accumulated pieces joined and quote-stripped. -/
def ml_flush (ck : Chars) (cv : List Chars) : List (Chars × Chars) :=
  if ck = [] then [] else [(ck, stripQ cv.flatten)]

/-- Loop body of the multi-line loader of test-gemini-key.py (load_env):
    the state is the pending key (empty list for the Python None or empty
    key, which behave identically) and the accumulated value pieces. -/
def load_env_go : Chars → List Chars → List Chars → List (Chars × Chars)
  | ck, cv, [] => ml_flush ck cv
  | ck, cv, l :: rest =>
    let line := pyTrim l
    if line.head? = some '#' ∨ line = [] then load_env_go ck cv rest
    else if line.contains '=' = true then
      ml_flush ck cv ++
        load_env_go (pyTrim (line.takeWhile (fun c => !(c == '='))))
          [stripQ ((line.dropWhile (fun c => !(c == '='))).tail)] rest
    else if ck = [] then load_env_go ck cv rest
    else load_env_go ck (cv ++ [stripQ line]) rest

/-- The multi-line-aware loader of test-gemini-key.py: the sequence of
    environment assignments it performs, in source order. -/
def load_env_multiline (lines : List Chars) : List (Chars × Chars) :=
  load_env_go [] [] lines

/-- Split file content at newline characters, as Python str.split on a
    newline does (used by the loaders when reading the file). -/
def split_lines_go (acc : Chars) : Chars → List Chars
  | [] => [acc.reverse]
  | c :: rest =>
    if c = '\n' then acc.reverse :: split_lines_go [] rest
    else split_lines_go (c :: acc) rest

/-- Split file content into its lines. -/
def split_lines (content : Chars) : List Chars := split_lines_go [] content

/-- The writer of test-models.py (save_env): one KEY=VALUE line per
    entry, each line terminated by a newline, overwriting the file. -/
def save_env (env : List (Chars × Chars)) : Chars :=
  (env.map (fun p => p.1 ++ '=' :: p.2 ++ ['\n'])).flatten

/-- The writer of gemini-key-helper.py (save_env): a comment header line
    followed by one KEY=VALUE line per entry. -/
def save_env_helper (env : List (Chars × Chars)) : Chars :=
  "# Gemini API Keys".data ++ '\n' :: save_env env

/-- Loading the content of a file with the single-line loader. -/
def load_env_file (content : Chars) : List (Chars × Chars) :=
  load_env_lines (split_lines content)

/-- A parts entry of a candidate in the JSON response body: the text
    field may be absent. -/
structure RPart where
  text : Option String
deriving DecidableEq

/-- The content object of a candidate: its parts array may be absent. -/
structure RContent where
  parts : Option (List RPart)
deriving DecidableEq

/-- A candidate entry of the JSON response body. The scripts access
    both candidate.content.parts and candidate.parts, and read an
    optional finishReason string. -/
structure Candidate where
  content : Option RContent
  parts : Option (List RPart)
  finishReason : Option String
deriving DecidableEq

/-- The usageMetadata object of the JSON response body. -/
structure Usage where
  promptTokenCount : Option Nat
  candidatesTokenCount : Option Nat
deriving DecidableEq

/-- A parsed JSON response body: the candidates array and the usage
    metadata may each be absent. -/
structure Body where
  candidates : Option (List Candidate)
  usageMetadata : Option Usage
deriving DecidableEq

/-- Outcome of one HTTP call made by a probe: a 2xx response whose JSON
    body parsed (ok), an HTTPError with a status code and an error body
    (httpError), or any other exception with its message (exc) - a
    timeout, a connection failure or malformed JSON all surface as the
    exc case, since json.loads raises inside the try block. -/
inductive Outcome where
  | ok (body : Body)
  | httpError (code : Nat) (errorBody : String)
  | exc (msg : String)
deriving DecidableEq

/-- First n characters of a string, as Python slicing does. -/
def pyTake (n : Nat) (s : String) : String := ⟨s.data.take n⟩

/-- Python str.strip() at the probe level. -/
def pyTrimS (s : String) : String := ⟨pyTrim s.data⟩

/-- A single-quote character as a one-character string (Python KeyError
    messages wrap the missing key in these). -/
def squote : String := ⟨[Char.ofNat 39]⟩

/-- The probe of test-gemini-key.py (test_key): classify one key-test
    call into a status string. -/
def test_key : Outcome → String
  | .ok body => if body.candidates.isSome then "valid" else "ERR no response"
  | .httpError code _ =>
    if code = 429 then "valid but rate limited"
    else if code = 403 ∨ code = 400 then "ERR invalid key"
    else "ERR " ++ toString code
  | .exc _ => "ERR connection failed"

/-- The statuses that the summary of test-gemini-key.py (main) counts as
    a working key. -/
def key_status_success (s : String) : Bool :=
  s == "valid" || s == "valid but rate limited"

/-- The probe of gemini-key-helper.py (test_api_key): a validity flag
    and a message. Inside the success branch the code reads
    result.candidates[0].parts[0].text; a missing key or empty list
    raises and is caught by the generic handler, which reports a
    connection error built from the first 50 characters of the
    exception message. -/
def test_api_key : Outcome → Bool × String
  | .ok body =>
    match body.candidates with
    | some (c0 :: _) =>
      match c0.parts with
      | none => (false, "Connection error: " ++ pyTake 50 (squote ++ "parts" ++ squote) ++ "...")
      | some [] => (false, "Connection error: " ++ pyTake 50 "list index out of range" ++ "...")
      | some (p0 :: _) =>
        match p0.text with
        | none => (false, "Connection error: " ++ pyTake 50 (squote ++ "text" ++ squote) ++ "...")
        | some t => (true, pyTrimS t)
    | _ => (false, "No response generated")
  | .httpError code _ =>
    if code = 400 then (false, "Invalid API key format")
    else if code = 403 then (false, "API key denied - check permissions")
    else if code = 429 then (false, "Rate limited - key might be valid")
    else (false, "HTTP " ++ toString code ++ " error")
  | .exc msg => (false, "Connection error: " ++ pyTake 50 msg ++ "...")

/-- Result of one model probe of test-models.py (test_model): the
    success path carries the output text and the token counts, the
    failure path carries the error string; both carry the elapsed
    duration, which the embedding takes as a parameter. -/
structure ProbeResult where
  success : Bool
  output : Option String
  input_tokens : Option Nat
  output_tokens : Option Nat
  error : Option String
  duration : Nat
deriving DecidableEq

/-- Output text selected by test-models.py (test_model) for the first
    candidate of a successful response, following its finishReason
    dispatch and its two fallback locations for the text. -/
def output_text (c0 : Candidate) : String :=
  let fr := c0.finishReason.getD "UNKNOWN"
  if fr = "MAX_TOKENS" then "Response truncated (hit token limit: " ++ fr ++ ")"
  else if fr = "SAFETY" then "Response blocked by safety filters: " ++ fr
  else if fr = "STOP" then
    match c0.content with
    | some ct =>
      match ct.parts with
      | some (p0 :: _) =>
        (match p0.text with
         | some t => pyTrimS t
         | none => "No text in response content")
      | _ =>
        (match c0.parts with
         | some (p0 :: _) =>
           (match p0.text with
            | some t => pyTrimS t
            | none => "No text in response parts")
         | _ => "No text found (finish reason: " ++ fr ++ ")")
    | none =>
      (match c0.parts with
       | some (p0 :: _) =>
         (match p0.text with
          | some t => pyTrimS t
          | none => "No text in response parts")
       | _ => "No text found (finish reason: " ++ fr ++ ")")
  else "Unexpected finish reason: " ++ fr

/-- Token count read from the optional usageMetadata with Python
    dict.get defaults. -/
def usage_tokens (u : Option Usage) (f : Usage → Option Nat) : Nat :=
  match u with
  | some usage => (f usage).getD 0
  | none => 0

/-- The probe of test-models.py (test_model): classify one model-test
    call into a ProbeResult. -/
def test_model (o : Outcome) (dur : Nat) : ProbeResult :=
  match o with
  | .ok body =>
    match body.candidates with
    | some (c0 :: _) =>
      { success := true
        output := some (output_text c0)
        input_tokens := some (usage_tokens body.usageMetadata (fun u => u.promptTokenCount))
        output_tokens := some (usage_tokens body.usageMetadata (fun u => u.candidatesTokenCount))
        error := none
        duration := dur }
    | _ =>
      { success := false, output := none, input_tokens := none,
        output_tokens := none, error := some "No candidates in response", duration := dur }
  | .httpError code errorBody =>
    { success := false, output := none, input_tokens := none, output_tokens := none,
      error := some ("HTTP " ++ toString code ++ ": " ++ pyTake 100 errorBody ++ "..."),
      duration := dur }
  | .exc msg =>
    { success := false, output := none, input_tokens := none, output_tokens := none,
      error := some (pyTake 100 msg), duration := dur }

/-- Whether a mocked HTTP outcome is a failing one for a model probe:
    everything except a 2xx body carrying a non-empty candidates array. -/
def outcome_fails : Outcome → Bool
  | .ok body =>
    match body.candidates with
    | some (_ :: _) => false
    | _ => true
  | _ => true

/-- The batch runner of test-models.py (run_test): each model is probed
    independently with the same key, and one result per model is
    collected. The mocked HTTP layer is the oracle from model name to
    outcome; dur gives the elapsed time of each probe. The parallel path
    gathers results in completion order, which this embedding does not
    fix, so statements about it are order-insensitive (counts and
    membership). -/
def run_test (models : List String) (oracle : String → Outcome) (dur : String → Nat) :
    List (String × ProbeResult) :=
  models.map (fun m => (m, test_model (oracle m) (dur m)))

/-- Process-level step taken by a script entry point: terminate the
    whole process with an exit status after printing a diagnostic, or
    proceed with the rest of main. -/
inductive MainStep where
  | exitProcess (code : Nat) (diag : String)
  | proceed
deriving DecidableEq

/-- String-level environment lookup (os.getenv after load_env, or
    env_vars.get on the loaded dictionary). -/
def env_get (env : List (String × String)) (k : String) : Option String :=
  ((env.reverse.find? (fun p => p.1 == k)).map Prod.snd)

/-- Python falsiness of the looked-up credential: absent or empty. -/
def credential_missing (env : List (String × String)) : Bool :=
  match env_get env "GEMINI_KEY" with
  | none => true
  | some v => v == ""

/-- Credential check at the top of main in test-models.py: a missing or
    empty GEMINI_KEY prints a diagnostic and calls sys.exit(1),
    terminating the process with status 1. -/
def test_models_cred_check (env : List (String × String)) : MainStep :=
  if credential_missing env then
    .exitProcess 1 "❌ GEMINI_KEY not found in .env file"
  else .proceed

/-- Credential check at the top of main in debug-gemini.py: a missing or
    empty GEMINI_KEY prints a diagnostic and returns from main, so the
    interpreter ends normally and the process exit status is 0. -/
def debug_cred_check (env : List (String × String)) : MainStep :=
  if credential_missing env then
    .exitProcess 0 "❌ GEMINI_KEY not found in .env file"
  else .proceed

/-- Success criterion in the words of the spec: the body contains at
    least one candidate entry in its candidates array. -/
def has_candidates (b : Body) : Bool :=
  match b.candidates with
  | some (_ :: _) => true
  | _ => false

/-- The stronger condition gemini-key-helper.py actually needs for a
    success: a first candidate carrying parts whose first part has a
    text field. -/
def has_first_text (b : Body) : Bool :=
  match b.candidates with
  | some (c :: _) =>
    (match c.parts with
     | some (p :: _) => p.text.isSome
     | _ => false)
  | _ => false

/-- C1 counterexample: a 2xx response whose well-formed JSON body has a
    present but empty candidates array is classified by test_key of
    test-gemini-key.py as the status "valid", which its summary counts
    as a success - the claim says such a response is not a success. -/
theorem c1_counterexample :
    ({ candidates := some [], usageMetadata := none : Body }).candidates = some []
    ∧ test_key (Outcome.ok { candidates := some [], usageMetadata := none }) = "valid"
    ∧ key_status_success
        (test_key (Outcome.ok { candidates := some [], usageMetadata := none })) = true := by
  exact ⟨rfl, rfl, rfl⟩

/-- C1 amended: on a 2xx response with a parsed body, test_model of
    test-models.py succeeds exactly when the candidates array is present
    and non-empty; test_key of test-gemini-key.py succeeds exactly when
    the candidates key is present, an empty array included; and
    test_api_key of gemini-key-helper.py succeeds exactly when the
    candidates array is non-empty and its first candidate carries
    parts[0].text (a first candidate without that field makes the
    extraction raise, which the probe converts to a connection-error
    failure). -/
theorem c1_amended : ∀ (body : Body) (dur : Nat),
    (test_model (Outcome.ok body) dur).success = has_candidates body
    ∧ (test_api_key (Outcome.ok body)).1 = has_first_text body
    ∧ key_status_success (test_key (Outcome.ok body)) = body.candidates.isSome := by
  intro body dur
  refine ⟨?_, ?_, ?_⟩
  · cases hb : body.candidates with
    | none => simp [test_model, has_candidates, hb]
    | some cs => cases cs <;> simp [test_model, has_candidates, hb]
  · cases hb : body.candidates with
    | none => simp [test_api_key, has_first_text, hb]
    | some cs =>
      cases cs with
      | nil => simp [test_api_key, has_first_text, hb]
      | cons c rest =>
        cases hp : c.parts with
        | none => simp [test_api_key, has_first_text, hb, hp]
        | some ps =>
          cases ps with
          | nil => simp [test_api_key, has_first_text, hb, hp]
          | cons p pr =>
            cases ht : p.text <;> simp [test_api_key, has_first_text, hb, hp, ht]
  · cases hb : body.candidates <;> simp [test_key, key_status_success, hb]

/-- C2 counterexample: with GEMINI_KEY absent from the loaded
    configuration, main of debug-gemini.py prints the diagnostic and
    returns from main, so the process terminates with exit status 0,
    not a non-zero status as the claim requires. -/
theorem c2_counterexample :
    debug_cred_check [] = MainStep.exitProcess 0 "❌ GEMINI_KEY not found in .env file" := rfl

/-- C2 amended: a missing (or empty) GEMINI_KEY makes test-models.py
    print a diagnostic and terminate the process with exit status 1 via
    sys.exit(1), while debug-gemini.py prints its diagnostic and
    returns from main, terminating the process normally with exit
    status 0; with the credential present and non-empty, both entry
    points proceed. -/
theorem c2_amended : ∀ env : List (String × String),
    (credential_missing env = true →
      test_models_cred_check env = MainStep.exitProcess 1 "❌ GEMINI_KEY not found in .env file"
      ∧ debug_cred_check env = MainStep.exitProcess 0 "❌ GEMINI_KEY not found in .env file")
    ∧ (credential_missing env = false →
      test_models_cred_check env = MainStep.proceed
      ∧ debug_cred_check env = MainStep.proceed) := by
  intro env
  constructor
  · intro h
    constructor <;> simp [test_models_cred_check, debug_cred_check, h]
  · intro h
    constructor <;> simp [test_models_cred_check, debug_cred_check, h]

theorem c2_amended_witness :
    credential_missing [] = true
    ∧ (test_models_cred_check [] = MainStep.exitProcess 1 "❌ GEMINI_KEY not found in .env file"
       ∧ debug_cred_check [] = MainStep.exitProcess 0 "❌ GEMINI_KEY not found in .env file") :=
  ⟨by decide, (c2_amended []).1 (by decide)⟩

/-- C7: any exception raised by the HTTP call other than an HTTPError -
    a timeout, a connection failure, malformed JSON, a missing field
    access - is caught at the probe boundary and converted into a
    returned connection-error result: test_key returns the fixed
    connection-failure status, test_api_key returns an invalid result
    with a connection-error message, and test_model returns a failure
    result carrying the truncated exception message; being total
    functions of the outcome, none of the probes lets the exception
    propagate. -/
theorem c7_connection_error : ∀ (msg : String) (dur : Nat),
    test_key (Outcome.exc msg) = "ERR connection failed"
    ∧ test_api_key (Outcome.exc msg) = (false, "Connection error: " ++ pyTake 50 msg ++ "...")
    ∧ test_model (Outcome.exc msg) dur =
      { success := false, output := none, input_tokens := none, output_tokens := none,
        error := some (pyTake 100 msg), duration := dur } := by
  intro msg dur
  exact ⟨rfl, rfl, rfl⟩

/-- C8: an HTTP 429 is classified by test_key as the
    rate-limited-but-possibly-valid status (which the summary counts as
    a working key) and by test_api_key with a message saying the key
    might be valid, and in both probes that classification differs from
    the one produced for an HTTP 403. -/
theorem c8_rate_limit_distinct : ∀ b b2 : String,
    test_key (Outcome.httpError 429 b) = "valid but rate limited"
    ∧ key_status_success (test_key (Outcome.httpError 429 b)) = true
    ∧ test_key (Outcome.httpError 403 b2) = "ERR invalid key"
    ∧ test_key (Outcome.httpError 429 b) ≠ test_key (Outcome.httpError 403 b2)
    ∧ test_api_key (Outcome.httpError 429 b) = (false, "Rate limited - key might be valid")
    ∧ test_api_key (Outcome.httpError 403 b2) = (false, "API key denied - check permissions")
    ∧ test_api_key (Outcome.httpError 429 b) ≠ test_api_key (Outcome.httpError 403 b2) := by
  intro b b2
  refine ⟨rfl, rfl, rfl, ?_, rfl, rfl, ?_⟩
  · show "valid but rate limited" ≠ "ERR invalid key"
    decide
  · show (false, "Rate limited - key might be valid")
        ≠ ((false, "API key denied - check permissions") : Bool × String)
    decide

/-- C9: test_key of test-gemini-key.py maps an HTTP 400 to the very
    status string it returns for an HTTP 403, so that script never
    reports a 400 as a category distinct from an authentication
    denial. -/
theorem c9_http400_same_as_403 : ∀ b b2 : String,
    test_key (Outcome.httpError 400 b) = "ERR invalid key"
    ∧ test_key (Outcome.httpError 400 b) = test_key (Outcome.httpError 403 b2) := by
  intro b b2
  exact ⟨rfl, rfl⟩

theorem test_model_success_iff (o : Outcome) (dur : Nat) :
    (test_model o dur).success = !outcome_fails o := by
  cases o with
  | ok body =>
    cases hb : body.candidates with
    | none => simp [test_model, outcome_fails, hb]
    | some cs => cases cs <;> simp [test_model, outcome_fails, hb]
  | httpError code eb => rfl
  | exc msg => rfl

theorem string_append_ne_empty (a b : String) (h : a.data ≠ []) : a ++ b ≠ "" := by
  intro he
  rw [String.ext_iff] at he
  simp at he
  exact h he.1

theorem pyTake_ne_empty (n : Nat) (s : String) (hn : n ≠ 0) (hs : s ≠ "") :
    pyTake n s ≠ "" := by
  intro he
  rw [String.ext_iff] at he
  simp [pyTake] at he
  rcases he with h | h
  · exact hn h
  · exact hs (by rw [String.ext_iff]; simpa using h)

theorem test_model_error_nonempty (o : Outcome) (dur : Nat)
    (hf : outcome_fails o = true)
    (hx : ∀ msg, o = Outcome.exc msg → msg ≠ "") :
    ∃ e, (test_model o dur).error = some e ∧ e ≠ "" := by
  cases o with
  | ok body =>
    cases hb : body.candidates with
    | none =>
      refine ⟨"No candidates in response", by simp [test_model, hb], by decide⟩
    | some cs =>
      cases cs with
      | nil => refine ⟨"No candidates in response", by simp [test_model, hb], by decide⟩
      | cons c r => simp [outcome_fails, hb] at hf
  | httpError code eb =>
    refine ⟨"HTTP " ++ toString code ++ ": " ++ pyTake 100 eb ++ "...", rfl, ?_⟩
    intro he
    rw [String.ext_iff] at he
    simp at he
  | exc msg =>
    refine ⟨pyTake 100 msg, rfl, ?_⟩
    exact pyTake_ne_empty 100 msg (by decide) (hx msg rfl)

theorem run_test_filter_counts (oracle : String → Outcome) (dur : String → Nat) :
    ∀ models : List String,
    ((run_test models oracle dur).filter (fun p => !p.2.success)).length
      = (models.filter (fun m => outcome_fails (oracle m))).length
    ∧ ((run_test models oracle dur).filter (fun p => p.2.success)).length
      = (models.filter (fun m => !outcome_fails (oracle m))).length := by
  intro models
  induction models with
  | nil => simp [run_test]
  | cons m ms ih =>
    have hs := test_model_success_iff (oracle m) (dur m)
    by_cases hf : outcome_fails (oracle m) = true
    · constructor
      · simpa [run_test, List.filter, hs, hf] using ih.1
      · simpa [run_test, List.filter, hs, hf] using ih.2
    · rw [Bool.not_eq_true] at hf
      constructor
      · simpa [run_test, List.filter, hs, hf] using ih.1
      · simpa [run_test, List.filter, hs, hf] using ih.2

theorem filter_not_length_sub (p : String → Bool) : ∀ l : List String,
    (l.filter (fun m => !p m)).length = l.length - (l.filter p).length := by
  intro l
  induction l with
  | nil => simp
  | cons a t ih =>
    have hle := List.length_filter_le p t
    by_cases hp : p a = true
    · simp [List.filter, hp, ih]
    · rw [Bool.not_eq_true] at hp
      simp [List.filter, hp, ih]
      omega

/-- C6: for a batch of probe tasks whose mocked HTTP layer makes
    exactly K of them fail, the runner of test-models.py yields exactly
    one result per task (no failure of one task stops the others: each probe
    is a total function of its own outcome), the K failing outcomes
    yield results marked failed carrying a non-empty error string, the
    remaining ones are marked successful, and no exception escapes the
    batch (hypothesis: mocked exception messages are non-empty, as a
    real exception rendering is). -/
theorem c6_batch : ∀ (models : List String) (oracle : String → Outcome) (dur : String → Nat),
    (∀ m ∈ models, ∀ msg, oracle m = Outcome.exc msg → msg ≠ "") →
    (run_test models oracle dur).length = models.length
    ∧ (run_test models oracle dur).map Prod.fst = models
    ∧ ((run_test models oracle dur).filter (fun p => !p.2.success)).length
        = (models.filter (fun m => outcome_fails (oracle m))).length
    ∧ ((run_test models oracle dur).filter (fun p => p.2.success)).length
        = models.length - (models.filter (fun m => outcome_fails (oracle m))).length
    ∧ ∀ p ∈ run_test models oracle dur, p.2.success = false →
        ∃ e, p.2.error = some e ∧ e ≠ "" := by
  intro models oracle dur hx
  have hmap : (run_test models oracle dur).map Prod.fst = models := by
    unfold run_test
    rw [List.map_map]
    exact List.map_id models
  refine ⟨by simp [run_test], hmap,
          (run_test_filter_counts oracle dur models).1,
          ?_, ?_⟩
  · rw [(run_test_filter_counts oracle dur models).2]
    exact filter_not_length_sub (fun m => outcome_fails (oracle m)) models
  · intro p hp hfail
    simp [run_test] at hp
    obtain ⟨m, hm, hpe⟩ := hp
    subst hpe
    have hfails : outcome_fails (oracle m) = true := by
      have := test_model_success_iff (oracle m) (dur m)
      simp at hfail
      rw [hfail] at this
      simpa using this.symm
    exact test_model_error_nonempty (oracle m) (dur m) hfails (fun msg h => hx m hm msg h)

/-- Mocked HTTP layer for the C6 witness: the first model succeeds with
    one candidate, the second fails with an HTTP 503. -/
def c6_oracle : String → Outcome := fun m =>
  if m = "gemini-2.5-pro" then
    Outcome.ok { candidates := some [{ content := none, parts := none, finishReason := none }],
                 usageMetadata := none }
  else Outcome.httpError 503 "service unavailable"

theorem c6_batch_witness :
    (∀ m ∈ ["gemini-2.5-pro", "gemini-2.5-flash"], ∀ msg,
        c6_oracle m = Outcome.exc msg → msg ≠ "")
    ∧ ((run_test ["gemini-2.5-pro", "gemini-2.5-flash"] c6_oracle (fun _ => 0)).length
         = ["gemini-2.5-pro", "gemini-2.5-flash"].length
       ∧ (run_test ["gemini-2.5-pro", "gemini-2.5-flash"] c6_oracle (fun _ => 0)).map Prod.fst
         = ["gemini-2.5-pro", "gemini-2.5-flash"]
       ∧ ((run_test ["gemini-2.5-pro", "gemini-2.5-flash"] c6_oracle
             (fun _ => 0)).filter (fun p => !p.2.success)).length
         = (["gemini-2.5-pro", "gemini-2.5-flash"].filter
             (fun m => outcome_fails (c6_oracle m))).length
       ∧ ((run_test ["gemini-2.5-pro", "gemini-2.5-flash"] c6_oracle
             (fun _ => 0)).filter (fun p => p.2.success)).length
         = ["gemini-2.5-pro", "gemini-2.5-flash"].length
           - (["gemini-2.5-pro", "gemini-2.5-flash"].filter
               (fun m => outcome_fails (c6_oracle m))).length
       ∧ ∀ p ∈ run_test ["gemini-2.5-pro", "gemini-2.5-flash"] c6_oracle (fun _ => 0),
           p.2.success = false → ∃ e, p.2.error = some e ∧ e ≠ "") := by
  have hx : ∀ m ∈ ["gemini-2.5-pro", "gemini-2.5-flash"], ∀ msg,
      c6_oracle m = Outcome.exc msg → msg ≠ "" := by
    intro m hm msg hmsg
    fin_cases hm <;> simp [c6_oracle] at hmsg
  exact ⟨hx, c6_batch ["gemini-2.5-pro", "gemini-2.5-flash"] c6_oracle (fun _ => 0) hx⟩

theorem head?_append_left (k r : Chars) (h : k ≠ []) : (k ++ r).head? = k.head? := by
  cases k with
  | nil => exact absurd rfl h
  | cons a t => rfl

theorem getLast?_append_ne (l r : Chars) (h : r ≠ []) : (l ++ r).getLast? = r.getLast? := by
  induction l with
  | nil => rfl
  | cons a t ih =>
    cases ht : t ++ r with
    | nil =>
      cases r with
      | nil => exact absurd rfl h
      | cons b s => simp at ht
    | cons b s =>
      have he : (a :: t) ++ r = a :: (t ++ r) := rfl
      rw [he, ht, List.getLast?_cons_cons, ← ht, ih]

theorem mem_of_head?_chars (l : Chars) (c : Char) (h : l.head? = some c) : c ∈ l := by
  cases l with
  | nil => simp at h
  | cons a t =>
    simp at h
    simp [h]

theorem mem_of_getLast?_chars : ∀ (l : Chars) (c : Char), l.getLast? = some c → c ∈ l := by
  intro l
  induction l with
  | nil => intro c h; simp at h
  | cons a t ih =>
    intro c h
    cases t with
    | nil =>
      simp at h
      simp [h]
    | cons b s =>
      rw [List.getLast?_cons_cons] at h
      exact List.mem_cons_of_mem a (ih c h)

theorem dropWhile_subset_chars (p : Char → Bool) :
    ∀ (l : Chars), ∀ c ∈ l.dropWhile p, c ∈ l := by
  intro l
  induction l with
  | nil => intro c h; simp at h
  | cons a t ih =>
    intro c h
    by_cases hp : p a
    · rw [List.dropWhile_cons_of_pos hp] at h
      exact List.mem_cons_of_mem a (ih c h)
    · rw [List.dropWhile_cons_of_neg hp] at h
      exact h

theorem pyTrim_subset (l : Chars) : ∀ c ∈ pyTrim l, c ∈ l := fun c h =>
  dropWhile_subset_chars isWS l c (stripR_subset isWS (stripL isWS l) c h)

theorem pyTrim_head_not (l : Chars) (c : Char) (h : (pyTrim l).head? = some c) :
    isWS c = false :=
  dropWhile_head_not isWS l c (stripR_head?_eq isWS (stripL isWS l) c h)

theorem pyTrim_last_not (l : Chars) (c : Char) (h : (pyTrim l).getLast? = some c) :
    isWS c = false :=
  stripR_getLast_not isWS (stripL isWS l) c h

theorem trimmed_head_not (l : Chars) (h : pyTrim l = l) :
    ∀ c, l.head? = some c → isWS c = false := fun c hc =>
  pyTrim_head_not l c (by rw [h]; exact hc)

theorem trimmed_last_not (l : Chars) (h : pyTrim l = l) :
    ∀ c, l.getLast? = some c → isWS c = false := fun c hc =>
  pyTrim_last_not l c (by rw [h]; exact hc)

theorem pyTrim_eq_self_of (l : Chars)
    (h1 : ∀ c, l.head? = some c → isWS c = false)
    (h2 : ∀ c, l.getLast? = some c → isWS c = false) : pyTrim l = l := by
  rw [pyTrim, pyStrip, stripL, dropWhile_eq_self_of isWS l h1, stripR_eq_self_of isWS l h2]

theorem quote_not_ws (c : Char) (h : isQuote c = true) : isWS c = false := by
  rw [isQuote] at h
  simp at h
  rcases h with h | h <;> subst h <;> decide

theorem contains_of_mem (l : Chars) (c : Char) (h : c ∈ l) : l.contains c = true := by
  induction l with
  | nil => simp at h
  | cons a t ih =>
    rcases List.mem_cons.mp h with h1 | h2
    · subst h1
      simp [List.contains_cons]
    · simp [List.contains_cons, ih h2]
      exact Or.inr h2

theorem split_at_eq (v : Chars) : ∀ (k : Chars), '=' ∉ k →
    ((k ++ '='::v).takeWhile (fun c => !(c == '=')) = k
     ∧ ((k ++ '='::v).dropWhile (fun c => !(c == '='))).tail = v) := by
  intro k
  induction k with
  | nil =>
    intro _
    constructor <;> simp [List.takeWhile_cons, List.dropWhile_cons]
  | cons a t ih =>
    intro h
    have ha : (a == '=') = false := by
      have hne : a ≠ '=' := fun he => h (by simp [he])
      simp [hne]
    have hstep := ih (fun hm => h (List.mem_cons_of_mem a hm))
    constructor
    · show List.takeWhile (fun c => !(c == '=')) (a :: (t ++ '='::v)) = a :: t
      rw [List.takeWhile_cons_of_pos (by simp [ha])]
      rw [hstep.1]
    · show (List.dropWhile (fun c => !(c == '=')) (a :: (t ++ '='::v))).tail = v
      rw [List.dropWhile_cons_of_pos (by simp [ha])]
      exact hstep.2

theorem parse_entry (k v : Chars) (hk0 : k ≠ []) (hk1 : pyTrim k = k)
    (hk2 : k.head? ≠ some '#') (hk3 : '=' ∉ k)
    (hv : ∀ c, v.getLast? = some c → isWS c = false) :
    parse_line (k ++ '='::v) = some (k, pyTrim (stripQ v)) := by
  have hline : pyTrim (k ++ '='::v) = k ++ '='::v := by
    apply pyTrim_eq_self_of
    · intro c hc
      rw [head?_append_left k ('='::v) hk0] at hc
      exact trimmed_head_not k hk1 c hc
    · intro c hc
      rw [getLast?_append_ne k ('='::v) (by simp)] at hc
      cases v with
      | nil =>
        simp at hc
        subst hc
        decide
      | cons b s =>
        rw [List.getLast?_cons_cons] at hc
        exact hv c hc
  have hcond : ¬((k ++ '='::v).head? = some '#' ∨ (k ++ '='::v) = []
      ∨ (k ++ '='::v).contains '=' = false) := by
    push_neg
    refine ⟨?_, ?_, ?_⟩
    · rw [head?_append_left k _ hk0]
      exact hk2
    · intro he
      rw [List.append_eq_nil] at he
      exact hk0 he.1
    · rw [contains_of_mem _ '=' (by simp)]
      simp
  simp only [parse_line, hline]
  rw [if_neg hcond, (split_at_eq v k hk3).1, (split_at_eq v k hk3).2, hk1]

theorem stripQ_wrapped (q q2 : Char) (hq : isQuote q = true) (hq2 : isQuote q2 = true)
    (inner : Chars) (hin : ∀ c ∈ inner, isQuote c = false) :
    stripQ (q :: (inner ++ [q2])) = inner := by
  rw [stripQ, pyStrip, stripL, List.dropWhile_cons_of_pos hq]
  cases inner with
  | nil =>
    show stripR isQuote (List.dropWhile isQuote [q2]) = []
    rw [List.dropWhile_cons_of_pos hq2]
    rfl
  | cons a t =>
    have ha : isQuote a = false := hin a (by simp)
    show stripR isQuote (List.dropWhile isQuote (a :: (t ++ [q2]))) = a :: t
    rw [List.dropWhile_cons_of_neg (by simp [ha])]
    rw [show a :: (t ++ [q2]) = (a :: t) ++ [q2] from rfl]
    rw [stripR_concat_pos isQuote q2 hq2 (a :: t)]
    exact stripR_eq_self_of_all isQuote (a :: t) hin

/-- C3 counterexample: on the well-formed input line KEY= "abc" (one
    space between the separator and the opening quote), the single-line
    loader yields a value whose first character is a retained double
    quote, because the code strips quote characters before it strips
    whitespace - the claim says no placement of whitespace outside the
    quotes leaves a surrounding quote in the value. -/
theorem c3_counterexample :
    dict_get (load_env_lines ["KEY= \"abc\"".data]) "KEY".data = some "\"abc".data
    ∧ ("\"abc".data).head? = some '"'
    ∧ isQuote '"' = true := by
  refine ⟨by decide, by decide, by decide⟩

/-- C3 amended: the loaded value never retains leading or trailing
    whitespace; and it retains no surrounding quote characters whenever
    the quotes are the outermost characters of the raw value - directly
    after the separator and at the end of the line - with any whitespace
    inside the quotes (or no quotes at all on a quote-free value). When
    whitespace stands between the separator and the opening quote, the
    quote is retained, as the counterexample shows. -/
theorem c3_amended : ∀ (k inner v : Chars) (q q2 : Char),
    k ≠ [] → pyTrim k = k → k.head? ≠ some '#' → '=' ∉ k →
    isQuote q = true → isQuote q2 = true →
    (∀ c ∈ inner, isQuote c = false) →
    (∀ c ∈ v, isQuote c = false) → pyTrim v = v →
    (load_env_lines [k ++ '='::(q :: (inner ++ [q2]))] = [(k, pyTrim inner)]
     ∧ (∀ c, (pyTrim inner).head? = some c → isWS c = false ∧ isQuote c = false)
     ∧ (∀ c, (pyTrim inner).getLast? = some c → isWS c = false ∧ isQuote c = false)
     ∧ load_env_lines [k ++ '='::v] = [(k, v)]) := by
  intro k inner v q q2 hk0 hk1 hk2 hk3 hq hq2 hin hvq hvt
  refine ⟨?_, ?_, ?_, ?_⟩
  · have hvlast : ∀ c, (q :: (inner ++ [q2])).getLast? = some c → isWS c = false := by
      intro c hc
      rw [show q :: (inner ++ [q2]) = (q :: inner) ++ [q2] from rfl] at hc
      rw [List.getLast?_concat] at hc
      cases hc
      exact quote_not_ws q2 hq2
    have hval : parse_line (k ++ '='::(q :: (inner ++ [q2]))) = some (k, pyTrim inner) := by
      rw [parse_entry k (q :: (inner ++ [q2])) hk0 hk1 hk2 hk3 hvlast,
          stripQ_wrapped q q2 hq hq2 inner hin]
    simp [load_env_lines, hval]
  · intro c hc
    exact ⟨pyTrim_head_not inner c hc,
           hin c (pyTrim_subset inner c (mem_of_head?_chars _ c hc))⟩
  · intro c hc
    exact ⟨pyTrim_last_not inner c hc,
           hin c (pyTrim_subset inner c (mem_of_getLast?_chars _ c hc))⟩
  · have hsq : stripQ v = v := pyStrip_eq_self_of_all isQuote v hvq
    have hval : parse_line (k ++ '='::v) = some (k, v) := by
      rw [parse_entry k v hk0 hk1 hk2 hk3 (trimmed_last_not v hvt), hsq, hvt]
    simp [load_env_lines, hval]

theorem c3_amended_witness :
    load_env_lines
        ["GEMINI_KEY".data ++ '='::('"' :: ("AIzaTest1234567890".data ++ ['"']))]
      = [("GEMINI_KEY".data, pyTrim "AIzaTest1234567890".data)]
    ∧ load_env_lines ["GEMINI_KEY".data ++ '='::"plain".data]
      = [("GEMINI_KEY".data, "plain".data)] :=
  ⟨(c3_amended "GEMINI_KEY".data "AIzaTest1234567890".data "plain".data '"' '"'
      (by decide) (by decide) (by decide) (by decide) (by decide) (by decide)
      (by decide) (by decide) (by decide)).1,
   (c3_amended "GEMINI_KEY".data "AIzaTest1234567890".data "plain".data '"' '"'
      (by decide) (by decide) (by decide) (by decide) (by decide) (by decide)
      (by decide) (by decide) (by decide)).2.2.2⟩

/-- Entries for which the write-then-reload round trip is exact: the key
    is non-empty, already stripped, free of the separator, the comment
    marker and newlines; the value is already stripped of whitespace and
    edge quotes and contains no newline. -/
def wf_entry (p : Chars × Chars) : Prop :=
  p.1 ≠ [] ∧ pyTrim p.1 = p.1 ∧ p.1.head? ≠ some '#' ∧ '=' ∉ p.1 ∧ '\n' ∉ p.1
  ∧ pyTrim p.2 = p.2 ∧ stripQ p.2 = p.2 ∧ '\n' ∉ p.2

instance wf_entry_decidable (p : Chars × Chars) : Decidable (wf_entry p) := by
  unfold wf_entry
  infer_instance

theorem split_lines_go_append : ∀ (a : Chars), '\n' ∉ a →
    ∀ (acc rest : Chars), split_lines_go acc (a ++ '\n' :: rest)
      = (acc.reverse ++ a) :: split_lines_go [] rest := by
  intro a
  induction a with
  | nil =>
    intro _ acc rest
    simp [split_lines_go]
  | cons c t ih =>
    intro h acc rest
    have hc : ¬(c = '\n') := fun he => h (by simp [he])
    rw [show (c :: t) ++ '\n'::rest = c :: (t ++ '\n'::rest) from rfl]
    rw [split_lines_go, if_neg hc,
        ih (fun hm => h (List.mem_cons_of_mem c hm)) (c :: acc) rest]
    simp

theorem split_lines_append (a : Chars) (h : '\n' ∉ a) (rest : Chars) :
    split_lines (a ++ '\n'::rest) = a :: split_lines rest := by
  rw [split_lines, split_lines_go_append a h [] rest, split_lines]
  simp

theorem load_save_round : ∀ (env : List (Chars × Chars)), (∀ p ∈ env, wf_entry p) →
    load_env_file (save_env env) = env := by
  intro env
  induction env with
  | nil => intro _; rfl
  | cons p env ih =>
    intro h
    obtain ⟨k, v⟩ := p
    obtain ⟨hk0, hk1, hk2, hk3, hkn, hv1, hv2, hvn⟩ := h (k, v) (by simp)
    have hsave : save_env ((k, v) :: env) = (k ++ '='::v) ++ '\n' :: save_env env := by
      simp [save_env, List.append_assoc]
    have hnl : '\n' ∉ (k ++ '='::v) := by
      intro hm
      rcases List.mem_append.mp hm with h1 | h2
      · exact hkn h1
      · rcases List.mem_cons.mp h2 with h3 | h4
        · exact absurd h3 (by decide)
        · exact hvn h4
    have hp : parse_line (k ++ '='::v) = some (k, v) := by
      rw [parse_entry k v hk0 hk1 hk2 hk3 (trimmed_last_not v hv1), hv2, hv1]
    rw [load_env_file, hsave, split_lines_append _ hnl, load_env_lines,
        List.filterMap_cons, hp]
    exact congrArg (List.cons (k, v)) (ih (fun q hq => h q (List.mem_cons_of_mem _ hq)))

theorem load_save_helper_round : ∀ (env : List (Chars × Chars)),
    (∀ p ∈ env, wf_entry p) → load_env_file (save_env_helper env) = env := by
  intro env h
  rw [load_env_file, save_env_helper,
      split_lines_append "# Gemini API Keys".data (by decide), load_env_lines,
      List.filterMap_cons]
  have hph : parse_line "# Gemini API Keys".data = none := by decide
  rw [hph]
  exact load_save_round env h

theorem comment_line_skipped (pre post : List Chars) (c : Chars)
    (h : (pyTrim c).head? = some '#') :
    load_env_lines (pre ++ c :: post) = load_env_lines (pre ++ post) := by
  rw [load_env_lines, load_env_lines, List.filterMap_append, List.filterMap_append,
      List.filterMap_cons]
  have hc : parse_line c = none := by
    simp only [parse_line]
    rw [if_pos (Or.inl h)]
  rw [hc]

/-- C4 counterexample: the ConfigMap with the single entry K mapped to
    a two-line value (which satisfies the data-model invariant of no
    surrounding quotes or whitespace) does not survive the round trip:
    the writer emits the newline verbatim, the loader reads two lines,
    and the reloaded value for K is only the first line. -/
theorem c4_counterexample :
    dict_get (load_env_file (save_env [("K".data, "a\nb".data)])) "K".data
      = some "a".data
    ∧ some "a".data ≠ some "a\nb".data := by
  refine ⟨by decide, by decide⟩

/-- C4 amended: for every ConfigMap whose entries are well-formed (keys
    non-empty, stripped, free of the separator, the comment marker and
    newlines; values stripped, without edge quotes, newline-free),
    writing with either writer - the plain one of test-models.py or the
    one of gemini-key-helper.py with its comment header - and reloading
    yields the original entry list exactly; and comment lines present in
    a file are not preserved: the loader produces the same assignments
    with any comment line removed. -/
theorem c4_amended :
    (∀ env : List (Chars × Chars), (∀ p ∈ env, wf_entry p) →
      load_env_file (save_env env) = env ∧ load_env_file (save_env_helper env) = env)
    ∧ ∀ (pre post : List Chars) (c : Chars), (pyTrim c).head? = some '#' →
      load_env_lines (pre ++ c :: post) = load_env_lines (pre ++ post) :=
  ⟨fun env h => ⟨load_save_round env h, load_save_helper_round env h⟩,
   comment_line_skipped⟩

theorem c4_amended_witness :
    (∀ p ∈ [("GEMINI_KEY".data, "AIzaTest1234567890".data)], wf_entry p)
    ∧ (load_env_file (save_env [("GEMINI_KEY".data, "AIzaTest1234567890".data)])
         = [("GEMINI_KEY".data, "AIzaTest1234567890".data)]
       ∧ load_env_file (save_env_helper [("GEMINI_KEY".data, "AIzaTest1234567890".data)])
         = [("GEMINI_KEY".data, "AIzaTest1234567890".data)])
    ∧ load_env_lines (["A=1".data] ++ "# note".data :: ["B=2".data])
      = load_env_lines (["A=1".data] ++ ["B=2".data]) :=
  ⟨by decide,
   c4_amended.1 [("GEMINI_KEY".data, "AIzaTest1234567890".data)] (by decide),
   c4_amended.2 ["A=1".data] ["B=2".data] "# note".data (by decide)⟩

theorem load_env_go_cont : ∀ (cs : List Chars) (ck : Chars) (cv : List Chars),
    ck ≠ [] →
    (∀ c ∈ cs, pyTrim c ≠ [] ∧ (pyTrim c).head? ≠ some '#'
       ∧ (pyTrim c).contains '=' = false) →
    load_env_go ck cv cs
      = [(ck, stripQ (cv.flatten ++ (cs.map (fun c => stripQ (pyTrim c))).flatten))] := by
  intro cs
  induction cs with
  | nil =>
    intro ck cv hck _
    simp [load_env_go, ml_flush, hck]
  | cons c cs ih =>
    intro ck cv hck h
    obtain ⟨h1, h2, h3⟩ := h c (by simp)
    have hcond : ¬((pyTrim c).head? = some '#' ∨ pyTrim c = []) := by
      push_neg
      exact ⟨h2, h1⟩
    simp only [load_env_go]
    rw [if_neg hcond,
        if_neg (show ¬((pyTrim c).contains '=' = true) by rw [h3]; simp),
        if_neg hck,
        ih ck (cv ++ [stripQ (pyTrim c)]) hck (fun d hd => h d (List.mem_cons_of_mem c hd))]
    simp [List.flatten_append, List.append_assoc]

/-- C5: for an input whose first line is a KEY=VALUE line followed only
    by continuation lines (non-empty after stripping, not comments, with
    no separator, quote-free), the multi-line loader of
    test-gemini-key.py produces exactly one assignment, whose value is
    the initial value followed by the stripped content of each
    continuation line, in source order, concatenated with nothing in
    between, and the pending entry is flushed at end of input. -/
theorem c5_continuations : ∀ (k v : Chars) (cs : List Chars),
    k ≠ [] → pyTrim k = k → k.head? ≠ some '#' → '=' ∉ k →
    (∀ c ∈ v, isQuote c = false) → pyTrim v = v →
    (∀ c ∈ cs, pyTrim c ≠ [] ∧ (pyTrim c).head? ≠ some '#'
       ∧ (pyTrim c).contains '=' = false
       ∧ ∀ ch ∈ pyTrim c, isQuote ch = false) →
    load_env_multiline ((k ++ '='::v) :: cs) = [(k, v ++ (cs.map pyTrim).flatten)] := by
  intro k v cs hk0 hk1 hk2 hk3 hvq hvt hcs
  have hline : pyTrim (k ++ '='::v) = k ++ '='::v := by
    apply pyTrim_eq_self_of
    · intro c hc
      rw [head?_append_left k ('='::v) hk0] at hc
      exact trimmed_head_not k hk1 c hc
    · intro c hc
      rw [getLast?_append_ne k ('='::v) (by simp)] at hc
      cases v with
      | nil =>
        simp at hc
        subst hc
        decide
      | cons b s =>
        rw [List.getLast?_cons_cons] at hc
        exact trimmed_last_not (b :: s) hvt c hc
  have hcond1 : ¬((k ++ '='::v).head? = some '#' ∨ (k ++ '='::v) = []) := by
    push_neg
    constructor
    · rw [head?_append_left k _ hk0]
      exact hk2
    · intro he
      rw [List.append_eq_nil] at he
      exact hk0 he.1
  have hcond2 : (k ++ '='::v).contains '=' = true := contains_of_mem _ '=' (by simp)
  have hsq : stripQ v = v := pyStrip_eq_self_of_all isQuote v hvq
  rw [load_env_multiline]
  simp only [load_env_go, hline]
  rw [if_neg hcond1, if_pos hcond2, (split_at_eq v k hk3).1, (split_at_eq v k hk3).2,
      hk1, hsq,
      load_env_go_cont cs k [v] hk0
        (fun c hc => ⟨(hcs c hc).1, (hcs c hc).2.1, (hcs c hc).2.2.1⟩)]
  have hmap : cs.map (fun c => stripQ (pyTrim c)) = cs.map pyTrim := by
    apply List.map_congr_left
    intro c hc
    exact pyStrip_eq_self_of_all isQuote (pyTrim c) ((hcs c hc).2.2.2)
  rw [hmap]
  have hins : stripQ (v ++ (cs.map pyTrim).flatten) = v ++ (cs.map pyTrim).flatten := by
    apply pyStrip_eq_self_of_all
    intro c hc
    rcases List.mem_append.mp hc with h1 | h2
    · exact hvq c h1
    · obtain ⟨piece, hpiece, hcp⟩ := List.mem_flatten.mp h2
      obtain ⟨d, hd, hde⟩ := List.mem_map.mp hpiece
      subst hde
      exact (hcs d hd).2.2.2 c hcp
  simp [ml_flush, hins]

theorem c5_continuations_witness :
    load_env_multiline
        (("GEMINI_KEY".data ++ '='::"AIzaTest".data) :: ["1234".data, "5678".data])
      = [("GEMINI_KEY".data,
          "AIzaTest".data ++ ((["1234".data, "5678".data].map pyTrim).flatten))] :=
  c5_continuations "GEMINI_KEY".data "AIzaTest".data ["1234".data, "5678".data]
    (by decide) (by decide) (by decide) (by decide) (by decide) (by decide) (by decide)

theorem load_env_go_pre : ∀ (pre rest : List Chars),
    (∀ c ∈ pre, (pyTrim c).contains '=' = false) →
    load_env_go [] [] (pre ++ rest) = load_env_go [] [] rest := by
  intro pre
  induction pre with
  | nil => intro rest _; rfl
  | cons c pre ih =>
    intro rest h
    have h3 := h c (by simp)
    show load_env_go [] [] (c :: (pre ++ rest)) = _
    simp only [load_env_go]
    by_cases hc1 : (pyTrim c).head? = some '#' ∨ pyTrim c = []
    · rw [if_pos hc1]
      exact ih rest (fun d hd => h d (List.mem_cons_of_mem c hd))
    · rw [if_neg hc1,
          if_neg (show ¬((pyTrim c).contains '=' = true) by rw [h3]; simp),
          if_pos trivial]
      exact ih rest (fun d hd => h d (List.mem_cons_of_mem c hd))

/-- C10: separator-free lines that occur before any KEY=VALUE line are
    silently ignored by the multi-line loader of test-gemini-key.py:
    with no pending entry they contribute nothing, so the loader yields
    exactly the assignments it yields for the same input with those
    lines removed (and, being a total function, raises no error). -/
theorem c10_orphan_continuations : ∀ (pre rest : List Chars),
    (∀ c ∈ pre, (pyTrim c).contains '=' = false) →
    load_env_multiline (pre ++ rest) = load_env_multiline rest := by
  intro pre rest h
  exact load_env_go_pre pre rest h

theorem c10_orphan_continuations_witness :
    (∀ c ∈ ["orphan continuation".data], (pyTrim c).contains '=' = false)
    ∧ load_env_multiline (["orphan continuation".data] ++ ["GEMINI_KEY=abc".data])
      = load_env_multiline ["GEMINI_KEY=abc".data] :=
  ⟨by decide,
   c10_orphan_continuations ["orphan continuation".data] ["GEMINI_KEY=abc".data]
     (by decide)⟩
